import Mathlib

/-!
Verification of the session/OAuth-state lifecycle manager of the
dotfiles-api repository.

The Go code keeps two in-memory tables guarded by mutexes:
- `OAuthService.states : map[string]*OAuthState` (internal/auth/oauth.go)
- `SessionManager.sessions : map[string]*Session` (internal/repository/memory/user.go)

We embed each table as an association list `List (String × β)` with
Go-map semantics (insert replaces, delete removes, lookup finds the
unique binding), thread the table state explicitly through every
operation, and model `time.Time` as a `Nat` instant.  `time.Now().After(t)`
in Go is the strict comparison `t < now`.
-/

namespace DotfilesApi

/-- Go-map lookup on an association list: the value bound to key `k`,
or `none` when the key is absent. -/
def lookup {β : Type} (m : List (String × β)) (k : String) : Option β :=
  match m with
  | [] => none
  | (k', v) :: rest => if k' = k then some v else lookup rest k

/-- Go-map `delete`: removes the binding for `k` (no-op when absent). -/
def mapErase {β : Type} (m : List (String × β)) (k : String) : List (String × β) :=
  m.filter (fun p => decide (p.1 ≠ k))

/-- Go-map assignment `m[k] = v`: replaces any previous binding for `k`. -/
def mapInsert {β : Type} (m : List (String × β)) (k : String) (v : β) :
    List (String × β) :=
  (k, v) :: mapErase m k

/-! ## OAuth state registry (internal/auth/oauth.go) -/

/-- An OAuth anti-CSRF state token with its expiry instant
(Go struct `OAuthState`; the token string is stored redundantly inside
the value, as in the source). -/
structure OAuthState where
  token : String
  expiresAt : Nat
  deriving Repr, DecidableEq

/-- The state-token validity window: `GetAuthURL` stores each token with
a 10-minute expiration (`time.Now().Add(10 * time.Minute)`), measured
here in seconds. -/
def stateTTL : Nat := 600

/-- State-registry side effect of `OAuthService.GetAuthURL`: stores the
freshly generated token with `expiresAt = now + 10 minutes`.  Token
generation itself is entropy, supplied here as the argument. -/
def GetAuthURLStore (states : List (String × OAuthState)) (stateToken : String)
    (now : Nat) : List (String × OAuthState) :=
  mapInsert states stateToken ⟨stateToken, now + stateTTL⟩

/-- Embeds `OAuthService.ValidateState`: looks the token up; absent
tokens fail; expired tokens are deleted and fail; live tokens are
deleted (one-time use) and succeed.  Returns the updated registry and
the boolean result. -/
def ValidateState (states : List (String × OAuthState)) (now : Nat)
    (state : String) : List (String × OAuthState) × Bool :=
  match lookup states state with
  | none => (states, false)
  | some oauthState =>
    if oauthState.expiresAt < now then
      (mapErase states state, false)
    else
      (mapErase states state, true)

/-! ## Session manager (internal/repository/memory/user.go)

Go's `Session.Data` is `map[string]interface{}`; its values are opaque
to every operation here, so we keep the value type as a parameter `α`.
Session identifiers come from a crypto-random generator; generation is
the caller-supplied entropy, passed in as the `sessionID` argument. -/

/-- Embeds the Go struct `Session`. -/
structure Session (α : Type) where
  id : String
  userID : String
  username : String
  email : String
  createdAt : Nat
  expiresAt : Nat
  data : List (String × α)
  deriving Repr, DecidableEq

/-- Embeds `SessionManager`: the session table and the configured
timeout. -/
structure SessionManager (α : Type) where
  sessions : List (String × Session α)
  timeout : Nat
  deriving Repr, DecidableEq

/-- Embeds `SessionManager.CreateSession`: builds a session with
`createdAt = now`, `expiresAt = now + timeout`, empty `Data`, inserts it
and returns it.  The only Go error path is entropy failure inside
`generateSessionID`, which is outside this pure embedding. -/
def CreateSession {α : Type} (sm : SessionManager α)
    (sessionID userID username email : String) (now : Nat) :
    SessionManager α × Session α :=
  let session : Session α :=
    { id := sessionID, userID := userID, username := username, email := email,
      createdAt := now, expiresAt := now + sm.timeout, data := [] }
  ({ sm with sessions := mapInsert sm.sessions sessionID session }, session)

/-- Embeds `SessionManager.GetSession`: absent id fails; an entry with
`now > expiresAt` is deleted and fails; otherwise `expiresAt` is
extended to `now + timeout` and the record returned.  The Go code
mutates the record through its pointer; we re-insert the updated
record, which is observationally the same table. -/
def GetSession {α : Type} (sm : SessionManager α) (sessionID : String)
    (now : Nat) : SessionManager α × Option (Session α) :=
  match lookup sm.sessions sessionID with
  | none => (sm, none)
  | some session =>
    if session.expiresAt < now then
      ({ sm with sessions := mapErase sm.sessions sessionID }, none)
    else
      let extended := { session with expiresAt := now + sm.timeout }
      ({ sm with sessions := mapInsert sm.sessions sessionID extended },
        some extended)

/-- Embeds `SessionManager.DeleteSession`: unconditional `delete` from
the map.  The Go function returns nothing, so it has no error path at
all. -/
def DeleteSession {α : Type} (sm : SessionManager α) (sessionID : String) :
    SessionManager α :=
  { sm with sessions := mapErase sm.sessions sessionID }

/-- The `for key, value := range data { session.Data[key] = value }` loop
of `UpdateSession`: writes every pair of `d` into `base`. -/
def mergeData {α : Type} (base : List (String × α)) (d : List (String × α)) :
    List (String × α) :=
  d.foldl (fun acc kv => mapInsert acc kv.1 kv.2) base

/-- Embeds `SessionManager.UpdateSession`: merges `data` into the
session's `Data` map when the session exists, and does nothing
otherwise.  The Go function returns nothing, so no error can be
surfaced. -/
def UpdateSession {α : Type} (sm : SessionManager α) (sessionID : String)
    (data : List (String × α)) : SessionManager α :=
  match lookup sm.sessions sessionID with
  | none => sm
  | some session =>
    let updated := { session with data := mergeData session.data data }
    { sm with sessions := mapInsert sm.sessions sessionID updated }

/-- One iteration of the `cleanupExpiredSessions` reaper loop at instant
`now`: delete every entry with `now > expiresAt`. -/
def cleanupSweep {α : Type} (sm : SessionManager α) (now : Nat) :
    SessionManager α :=
  { sm with
    sessions := sm.sessions.filter (fun p => !decide (p.2.expiresAt < now)) }

/-- A schedule of `GetSession` call instants is admissible when the
first call is not past the current stored expiry and every later call
is not past the expiry set by its predecessor (each gap is at most the
timeout). -/
def gapsOk (timeout : Nat) : Nat → List Nat → Prop
  | _, [] => True
  | bound, t :: ts => t ≤ bound ∧ gapsOk timeout (t + timeout) ts

/-- Runs `GetSession` at each instant of the schedule, threading the
table; `true` iff every call found the session. -/
def slidingOk {α : Type} (sessionID : String) :
    SessionManager α → List Nat → Bool
  | _, [] => true
  | sm, t :: ts =>
    match GetSession sm sessionID t with
    | (sm', some _) => slidingOk sessionID sm' ts
    | (_, none) => false

/-! ## Legacy auth middleware (internal/middleware, handlers/auth.go) -/

/-- The session mapping the legacy middleware expects from its cookie. -/
def SessionData : Type := List (String × String)

/-- Embeds `middleware.getSession`: reads the `session` cookie (`none`
models the error return of `Request.Cookie` when the cookie is absent),
rejects an empty value, and then unconditionally ends in `return nil` —
the successful-parse path was never implemented. -/
def getSession (sessionCookie : Option String) : Option SessionData :=
  match sessionCookie with
  | none => none
  | some value =>
    if value = "" then none
    else none

/-- The outcome of the `RequireAuth` middleware on one request. -/
inductive AuthDecision where
  | unauthorized (msg : String)
  | ok (userID : String)
  deriving Repr, DecidableEq

/-- Embeds `middleware.RequireAuth`: aborts 401 when `getSession` yields
nil, aborts 401 when the session lacks `user_id`, and otherwise stores
the user id and lets the request continue. -/
def RequireAuth (sessionCookie : Option String) : AuthDecision :=
  match getSession sessionCookie with
  | none => .unauthorized "authentication required"
  | some session =>
    match lookup session "user_id" with
    | none => .unauthorized "invalid session"
    | some userID => .ok userID

/-! ## Concrete fixtures used by the witness theorems -/

/-- A live session: created at 0, expiring at 10. -/
def sessW : Session Nat :=
  { id := "s1", userID := "u1", username := "alice", email := "a@example.com",
    createdAt := 0, expiresAt := 10, data := [] }

/-- A one-session manager with timeout 10 holding `sessW`. -/
def smW : SessionManager Nat := { sessions := [("s1", sessW)], timeout := 10 }

/-- A session whose expiry (instant 0) is already in the past, with one
data key. -/
def sessOld : Session Nat :=
  { id := "s2", userID := "u2", username := "bob", email := "b@example.com",
    createdAt := 0, expiresAt := 0, data := [("k1", 1)] }

/-- A manager holding only the already-expired `sessOld`. -/
def smOld : SessionManager Nat := { sessions := [("s2", sessOld)], timeout := 10 }

/-- Three sessions, all expiring at or before instant 10. -/
def smThree : SessionManager Nat :=
  { sessions :=
      [ ("a", { sessW with id := "a", expiresAt := 3 }),
        ("b", { sessW with id := "b", expiresAt := 7 }),
        ("c", { sessW with id := "c", expiresAt := 10 }) ],
    timeout := 10 }

/-! ## Association-list lemmas -/

theorem lookup_mapErase {β : Type} (m : List (String × β)) (k : String) :
    lookup (mapErase m k) k = none := by
  induction m with
  | nil => rfl
  | cons p rest ih =>
    obtain ⟨pk, pv⟩ := p
    by_cases h : pk = k
    · simpa [mapErase, List.filter_cons, h] using ih
    · simpa [mapErase, List.filter_cons, lookup, h] using ih

theorem lookup_mapErase_ne {β : Type} (m : List (String × β)) (k k' : String)
    (h : k' ≠ k) : lookup (mapErase m k) k' = lookup m k' := by
  induction m with
  | nil => rfl
  | cons p rest ih =>
    obtain ⟨pk, pv⟩ := p
    by_cases hp : pk = k
    · have hhead : mapErase ((pk, pv) :: rest) k = mapErase rest k := by
        simp [mapErase, List.filter_cons, hp]
      have hr : lookup ((pk, pv) :: rest) k' = lookup rest k' := by
        have hp' : ¬ pk = k' := fun hc => h (by rw [← hc, hp])
        simp [lookup, hp']
      rw [hhead, hr]
      exact ih
    · have hhead : mapErase ((pk, pv) :: rest) k = (pk, pv) :: mapErase rest k := by
        simp [mapErase, List.filter_cons, hp]
      by_cases hq : pk = k'
      · rw [hhead]
        simp [lookup, hq]
      · rw [hhead]
        simp [lookup, hq]
        exact ih

theorem lookup_mapInsert {β : Type} (m : List (String × β)) (k : String) (v : β) :
    lookup (mapInsert m k v) k = some v := by
  simp [mapInsert, lookup]

theorem lookup_mapInsert_ne {β : Type} (m : List (String × β)) (k k' : String)
    (v : β) (h : k' ≠ k) :
    lookup (mapInsert m k v) k' = lookup m k' := by
  have : k ≠ k' := fun hc => h hc.symm
  simp [mapInsert, lookup, this]
  exact lookup_mapErase_ne m k k' h

theorem mapErase_mapErase {β : Type} (m : List (String × β)) (k : String) :
    mapErase (mapErase m k) k = mapErase m k := by
  simp [mapErase, List.filter_filter]

theorem mapErase_of_lookup_none {β : Type} (m : List (String × β)) (k : String)
    (h : lookup m k = none) : mapErase m k = m := by
  induction m with
  | nil => rfl
  | cons p rest ih =>
    obtain ⟨pk, pv⟩ := p
    by_cases hp : pk = k
    · simp [lookup, hp] at h
    · simp [lookup, hp] at h
      have hhead : mapErase ((pk, pv) :: rest) k = (pk, pv) :: mapErase rest k := by
        simp [mapErase, List.filter_cons, hp]
      rw [hhead, ih h]

theorem lookup_eq_none_of_not_mem_keys {β : Type} (m : List (String × β))
    (k : String) (h : k ∉ m.map Prod.fst) : lookup m k = none := by
  induction m with
  | nil => rfl
  | cons p rest ih =>
    obtain ⟨pk, pv⟩ := p
    simp at h
    have hk : ¬ pk = k := fun hc => h.1 hc.symm
    simp [lookup, hk]
    exact ih (by simp [h.2])

theorem keys_filter_subset {β : Type} (f : String × β → Bool)
    (m : List (String × β)) (k : String)
    (hc : k ∈ (m.filter f).map Prod.fst) : k ∈ m.map Prod.fst := by
  rcases List.mem_map.mp hc with ⟨p, hp, hpk⟩
  exact List.mem_map.mpr ⟨p, List.mem_of_mem_filter hp, hpk⟩

theorem lookup_filterVals {β : Type} (pred : β → Bool) (m : List (String × β))
    (hk : (m.map Prod.fst).Nodup) (k : String) :
    lookup (m.filter (fun p => pred p.2)) k =
      match lookup m k with
      | none => none
      | some v => if pred v then some v else none := by
  induction m with
  | nil => rfl
  | cons p rest ih =>
    obtain ⟨pk, pv⟩ := p
    simp only [List.map_cons, List.nodup_cons] at hk
    have hk1 : pk ∉ rest.map Prod.fst := hk.1
    have hk2 : (rest.map Prod.fst).Nodup := hk.2
    by_cases hp : pk = k
    · have hl : lookup ((pk, pv) :: rest) k = some pv := by simp [lookup, hp]
      by_cases hf : pred pv
      · have hstep : lookup (((pk, pv) :: rest).filter (fun p => pred p.2)) k =
            some pv := by
          simp [List.filter_cons, hf, lookup, hp]
        rw [hstep, hl]
        simp [hf]
      · have hnk : k ∉ rest.map Prod.fst := hp ▸ hk1
        have hnone : lookup (rest.filter (fun p => pred p.2)) k = none :=
          lookup_eq_none_of_not_mem_keys _ _
            (fun hc => hnk (keys_filter_subset _ _ _ hc))
        have hstep : lookup (((pk, pv) :: rest).filter (fun p => pred p.2)) k =
            lookup (rest.filter (fun p => pred p.2)) k := by
          simp [List.filter_cons, hf]
        rw [hstep, hnone, hl]
        simp [hf]
    · have hr : lookup ((pk, pv) :: rest) k = lookup rest k := by
        simp [lookup, hp]
      have hstep : lookup (((pk, pv) :: rest).filter (fun p => pred p.2)) k =
          lookup (rest.filter (fun p => pred p.2)) k := by
        by_cases hf : pred pv
        · simp [List.filter_cons, hf, lookup, hp]
        · simp [List.filter_cons, hf]
      rw [hstep, hr, ih hk2]

theorem lookup_mergeData {α : Type} :
    ∀ (d : List (String × α)), (d.map Prod.fst).Nodup →
      ∀ (base : List (String × α)) (k : String),
        lookup (mergeData base d) k =
          match lookup d k with
          | some v => some v
          | none => lookup base k := by
  intro d
  induction d with
  | nil => intro _ base k; rfl
  | cons p rest ih =>
    intro hd base k
    obtain ⟨pk, pv⟩ := p
    simp only [List.map_cons, List.nodup_cons] at hd
    have hd1 : pk ∉ rest.map Prod.fst := hd.1
    have hd2 : (rest.map Prod.fst).Nodup := hd.2
    have hstep : mergeData base ((pk, pv) :: rest) =
        mergeData (mapInsert base pk pv) rest := rfl
    rw [hstep, ih hd2]
    by_cases hp : pk = k
    · subst hp
      have hrest : lookup rest pk = none :=
        lookup_eq_none_of_not_mem_keys _ _ hd1
      rw [hrest]
      simp [lookup, lookup_mapInsert]
    · have h1 : lookup ((pk, pv) :: rest) k = lookup rest k := by
        simp [lookup, hp]
      rw [h1]
      cases hr : lookup rest k with
      | some v => rfl
      | none => exact lookup_mapInsert_ne _ _ _ _ (fun hc => hp hc.symm)

/-! ## OAuth state registry theorems (claims C1, C2) -/

/-- A token absent from the registry never validates and the registry is
left unchanged. -/
theorem validateState_absent (states : List (String × OAuthState)) (now : Nat)
    (state : String) (h : lookup states state = none) :
    ValidateState states now state = (states, false) := by
  simp [ValidateState, h]

/-- C1: single-use tokens.  Whenever `ValidateState` returns `true` for a
token, the token has been removed from the registry, and a second
`ValidateState` on the resulting registry (at any later instant, with no
re-issue) returns `false` and changes nothing. -/
theorem validateState_single_use (states : List (String × OAuthState))
    (now : Nat) (t : String)
    (h : (ValidateState states now t).2 = true) :
    lookup (ValidateState states now t).1 t = none ∧
      ∀ now' : Nat,
        ValidateState (ValidateState states now t).1 now' t =
          ((ValidateState states now t).1, false) := by
  have hrm : (ValidateState states now t).1 = mapErase states t := by
    unfold ValidateState at h ⊢
    cases hl : lookup states t with
    | none => simp [hl] at h
    | some st =>
      by_cases he : st.expiresAt < now
      · simp [hl, he] at h
      · simp [hl, he]
  refine ⟨?_, ?_⟩
  · rw [hrm]
    exact lookup_mapErase states t
  · intro now'
    apply validateState_absent
    rw [hrm]
    exact lookup_mapErase states t

/-- Witness for C1: a concrete one-entry registry whose token validates
once at time 5 and then never again. -/
theorem validateState_single_use_witness :
    lookup (ValidateState [("t1", ⟨"t1", 10⟩)] 5 "t1").1 "t1" = none ∧
      ∀ now' : Nat,
        ValidateState (ValidateState [("t1", ⟨"t1", 10⟩)] 5 "t1").1 now' "t1" =
          ((ValidateState [("t1", ⟨"t1", 10⟩)] 5 "t1").1, false) :=
  validateState_single_use [("t1", ⟨"t1", 10⟩)] 5 "t1" (by decide)

/-- C2: expired tokens fail even on first use and are purged on touch.
If the registry binds `t` to a state whose `expiresAt` is strictly before
`now`, `ValidateState` returns `false` and removes `t`. -/
theorem validateState_expired (states : List (String × OAuthState))
    (now : Nat) (t : String) (st : OAuthState)
    (hl : lookup states t = some st) (he : st.expiresAt < now) :
    (ValidateState states now t).2 = false ∧
      lookup (ValidateState states now t).1 t = none := by
  unfold ValidateState
  rw [hl]
  simp [he]
  exact lookup_mapErase states t

/-- Witness for C2: a token that expired at time 10, touched at time 11,
fails and is removed. -/
theorem validateState_expired_witness :
    (ValidateState [("t1", ⟨"t1", 10⟩)] 11 "t1").2 = false ∧
      lookup (ValidateState [("t1", ⟨"t1", 10⟩)] 11 "t1").1 "t1" = none :=
  validateState_expired [("t1", ⟨"t1", 10⟩)] 11 "t1" ⟨"t1", 10⟩ (by decide)
    (by decide)

/-! ## Session manager theorems (claims C3–C8, C10) -/

/-- Liveness step used by several claims: a stored session whose expiry
has not passed is returned with its expiry extended to `now + timeout`,
and the table is updated accordingly. -/
theorem getSession_live {α : Type} (sm : SessionManager α) (id : String)
    (s : Session α) (now : Nat) (hl : lookup sm.sessions id = some s)
    (ht : ¬ s.expiresAt < now) :
    GetSession sm id now =
      ({ sm with sessions :=
          mapInsert sm.sessions id { s with expiresAt := now + sm.timeout } },
        some { s with expiresAt := now + sm.timeout }) := by
  simp [GetSession, hl, ht]

/-- Every admissible schedule of calls keeps the session found. -/
theorem slidingOk_of_gapsOk {α : Type} :
    ∀ (ts : List Nat) (sm : SessionManager α) (id : String) (s : Session α),
      lookup sm.sessions id = some s →
      gapsOk sm.timeout s.expiresAt ts →
      slidingOk id sm ts = true := by
  intro ts
  induction ts with
  | nil => intro sm id s _ _; rfl
  | cons t ts ih =>
    intro sm id s hl hg
    obtain ⟨ht, hg'⟩ := hg
    have hlive := getSession_live sm id s t hl (by omega)
    have hstep : slidingOk id sm (t :: ts) =
        slidingOk id
          ({ sm with sessions :=
                mapInsert sm.sessions id { s with expiresAt := t + sm.timeout } })
          ts := by
      simp [slidingOk, hlive]
    rw [hstep]
    exact ih _ id { s with expiresAt := t + sm.timeout }
      (lookup_mapInsert _ _ _) hg'

/-- C3: sliding expiration.  For a stored session whose expiry has not
passed: `GetSession` finds it and sets its expiry to `now + timeout`;
any admissible schedule of follow-up calls (each within the timeout of
the previous success) keeps the session found; and a gap strictly longer
than the timeout after a successful access makes the next `GetSession`
return not-found. -/
theorem getSession_sliding {α : Type} (sm : SessionManager α) (id : String)
    (s : Session α) (h : lookup sm.sessions id = some s) :
    (∀ now : Nat, ¬ s.expiresAt < now →
        (GetSession sm id now).2.isSome = true ∧
        (GetSession sm id now).2.map Session.expiresAt =
          some (now + sm.timeout)) ∧
    (∀ ts : List Nat, gapsOk sm.timeout s.expiresAt ts →
        slidingOk id sm ts = true) ∧
    (∀ now now' : Nat, ¬ s.expiresAt < now → now + sm.timeout < now' →
        (GetSession (GetSession sm id now).1 id now').2 = none) := by
  refine ⟨?_, ?_, ?_⟩
  · intro now hn
    rw [getSession_live sm id s now h hn]
    simp
  · intro ts hg
    exact slidingOk_of_gapsOk ts sm id s h hg
  · intro now now' hn hgap
    rw [getSession_live sm id s now h hn]
    simp [GetSession, lookup_mapInsert, hgap]

/-- Witness for C3: the concrete session expiring at 10 is found at
instant 5 with its expiry moved to 15, a 5-10-10-gap schedule keeps it
alive, and a gap past the new expiry loses it. -/
theorem getSession_sliding_witness :
    ((GetSession smW "s1" 5).2.isSome = true ∧
      (GetSession smW "s1" 5).2.map Session.expiresAt = some 15) ∧
    slidingOk "s1" smW [5, 15, 25] = true ∧
    (GetSession (GetSession smW "s1" 5).1 "s1" 16).2 = none := by
  have h := getSession_sliding smW "s1" sessW (by decide)
  refine ⟨h.1 5 (by decide), ?_, h.2.2 5 16 (by decide) (by decide)⟩
  exact h.2.1 [5, 15, 25] (by exact ⟨by decide, by decide, by decide, trivial⟩)

/-- C4: lazy expiration.  A stored session whose expiry is strictly past
is deleted by `GetSession` and reported not-found, with every other
entry untouched; an absent id is reported not-found with the whole state
unchanged. -/
theorem getSession_expired_or_absent {α : Type} (sm : SessionManager α)
    (id : String) (now : Nat) :
    (∀ s : Session α, lookup sm.sessions id = some s → s.expiresAt < now →
        (GetSession sm id now).2 = none ∧
        lookup (GetSession sm id now).1.sessions id = none ∧
        ∀ k, k ≠ id → lookup (GetSession sm id now).1.sessions k =
          lookup sm.sessions k) ∧
    (lookup sm.sessions id = none → GetSession sm id now = (sm, none)) := by
  constructor
  · intro s hl he
    have hrun : GetSession sm id now =
        ({ sm with sessions := mapErase sm.sessions id }, none) := by
      simp [GetSession, hl, he]
    rw [hrun]
    exact ⟨rfl, lookup_mapErase _ _, fun k hk => lookup_mapErase_ne _ _ _ hk⟩
  · intro hl
    simp [GetSession, hl]

/-- Witness for C4: at instant 11 the session expiring at 10 is gone and
reported not-found, and a never-issued id leaves the state unchanged. -/
theorem getSession_expired_or_absent_witness :
    ((GetSession smW "s1" 11).2 = none ∧
      lookup (GetSession smW "s1" 11).1.sessions "s1" = none) ∧
    GetSession smW "zz" 11 = (smW, none) := by
  have h := getSession_expired_or_absent smW "s1" 11
  have hz := getSession_expired_or_absent smW "zz" 11
  exact ⟨⟨(h.1 sessW (by decide) (by decide)).1,
    (h.1 sessW (by decide) (by decide)).2.1⟩, hz.2 (by decide)⟩

/-- C5: freshness.  Right after `CreateSession`, a `GetSession` at any
instant not past the fresh expiry finds a record carrying exactly the
created user id, username, email, the creation instant, and an empty
data map. -/
theorem createSession_fresh {α : Type} (sm : SessionManager α)
    (sessionID userID username email : String) (now now' : Nat)
    (h : ¬ now + sm.timeout < now') :
    ∃ s' : Session α,
      (GetSession (CreateSession sm sessionID userID username email now).1
          sessionID now').2 = some s' ∧
      s'.userID = userID ∧ s'.username = username ∧ s'.email = email ∧
      s'.createdAt = now ∧ s'.data = [] := by
  refine ⟨{ id := sessionID, userID := userID, username := username,
            email := email, createdAt := now,
            expiresAt := now' + sm.timeout, data := [] },
    ?_, rfl, rfl, rfl, rfl, rfl⟩
  simp [CreateSession, GetSession, lookup_mapInsert, h]

/-- Witness for C5: creating session `s9` for user `u9` at instant 0 and
reading it back at instant 3 returns the same principal snapshot. -/
theorem createSession_fresh_witness :
    ∃ s' : Session Nat,
      (GetSession (CreateSession (⟨[], 10⟩ : SessionManager Nat)
          "s9" "u9" "carol" "c@example.com" 0).1 "s9" 3).2 = some s' ∧
      s'.userID = "u9" ∧ s'.username = "carol" ∧ s'.email = "c@example.com" ∧
      s'.createdAt = 0 ∧ s'.data = [] :=
  createSession_fresh ⟨[], 10⟩ "s9" "u9" "carol" "c@example.com" 0 3 (by decide)

/-- C6: the reaper sweep.  With the Go-map key-uniqueness invariant, one
sweep at instant `now` removes exactly the entries whose expiry is
strictly past, keeps every other entry with its record unchanged, and
empties the table when every entry is past expiry. -/
theorem cleanupSweep_spec {α : Type} (sm : SessionManager α) (now : Nat)
    (hk : (sm.sessions.map Prod.fst).Nodup) :
    (∀ (id : String) (s : Session α), lookup sm.sessions id = some s →
        s.expiresAt < now → lookup (cleanupSweep sm now).sessions id = none) ∧
    (∀ (id : String) (s : Session α), lookup sm.sessions id = some s →
        ¬ s.expiresAt < now →
        lookup (cleanupSweep sm now).sessions id = some s) ∧
    ((∀ p ∈ sm.sessions, p.2.expiresAt < now) →
        (cleanupSweep sm now).sessions = []) := by
  refine ⟨?_, ?_, ?_⟩
  · intro id s hl he
    have h1 := lookup_filterVals (fun v : Session α => !decide (v.expiresAt < now))
      sm.sessions hk id
    rw [hl] at h1
    simp [he] at h1
    exact h1
  · intro id s hl hn
    have h1 := lookup_filterVals (fun v : Session α => !decide (v.expiresAt < now))
      sm.sessions hk id
    rw [hl] at h1
    simp [hn] at h1
    exact h1
  · intro hall
    simp only [cleanupSweep]
    rw [List.filter_eq_nil_iff]
    intro p hp
    simp [hall p hp]

/-- Witness for C6: sweeping the three-session table at instant 99
(past every expiry) empties it, while sweeping at instant 5 keeps the
entry expiring at 7. -/
theorem cleanupSweep_spec_witness :
    (cleanupSweep smThree 99).sessions = [] ∧
      lookup (cleanupSweep smThree 5).sessions "b" =
        some { sessW with id := "b", expiresAt := 7 } := by
  constructor
  · exact (cleanupSweep_spec smThree 99 (by decide)).2.2 (by decide)
  · exact (cleanupSweep_spec smThree 5 (by decide)).2.1 "b"
      { sessW with id := "b", expiresAt := 7 } (by decide) (by decide)

/-- C7: `DeleteSession` is total (the Go function has no error return),
removes the id unconditionally, is idempotent, and is a no-op on an
absent id. -/
theorem deleteSession_spec {α : Type} (sm : SessionManager α) (id : String) :
    lookup (DeleteSession sm id).sessions id = none ∧
    DeleteSession (DeleteSession sm id) id = DeleteSession sm id ∧
    (lookup sm.sessions id = none → DeleteSession sm id = sm) := by
  refine ⟨lookup_mapErase _ _, ?_, ?_⟩
  · simp only [DeleteSession]
    rw [mapErase_mapErase]
  · intro h
    simp only [DeleteSession]
    rw [mapErase_of_lookup_none _ _ h]

/-- Witness for C7: deleting a never-issued id from the concrete table
removes nothing and changes nothing, idempotently. -/
theorem deleteSession_spec_witness :
    lookup (DeleteSession smW "zz").sessions "zz" = none ∧
      DeleteSession (DeleteSession smW "zz") "zz" = DeleteSession smW "zz" ∧
      DeleteSession smW "zz" = smW :=
  ⟨(deleteSession_spec smW "zz").1, (deleteSession_spec smW "zz").2.1,
    (deleteSession_spec smW "zz").2.2 (by decide)⟩

/-- C8: `UpdateSession` merge semantics.  For a present session, every
key of the update map is written with its new value, every other data
key keeps its old value; for an absent session the whole state is
unchanged and (the Go function returning nothing) no error can be
surfaced. -/
theorem updateSession_merge {α : Type} (sm : SessionManager α) (id : String)
    (d : List (String × α)) (hd : (d.map Prod.fst).Nodup) :
    (∀ s : Session α, lookup sm.sessions id = some s →
        ∃ s' : Session α,
          lookup (UpdateSession sm id d).sessions id = some s' ∧
          (∀ k v, lookup d k = some v → lookup s'.data k = some v) ∧
          (∀ k, lookup d k = none → lookup s'.data k = lookup s.data k)) ∧
    (lookup sm.sessions id = none → UpdateSession sm id d = sm) := by
  constructor
  · intro s hl
    refine ⟨{ s with data := mergeData s.data d }, ?_, ?_, ?_⟩
    · simp [UpdateSession, hl, lookup_mapInsert]
    · intro k v hk
      have hm := lookup_mergeData d hd s.data k
      simp only [hm, hk]
    · intro k hk
      have hm := lookup_mergeData d hd s.data k
      simp only [hm, hk]
  · intro hl
    simp [UpdateSession, hl]

/-- Witness for C8: merging `k1 ↦ 2, k2 ↦ 3` into the expired-session
table overwrites `k1`, adds `k2`; updating a never-issued id is a
no-op. -/
theorem updateSession_merge_witness :
    (∃ s' : Session Nat,
        lookup (UpdateSession smOld "s2" [("k1", 2), ("k2", 3)]).sessions "s2" =
          some s' ∧
        (∀ k v, lookup [("k1", 2), ("k2", 3)] k = some v →
          lookup s'.data k = some v) ∧
        (∀ k, lookup [("k1", 2), ("k2", 3)] k = none →
          lookup s'.data k = lookup sessOld.data k)) ∧
    UpdateSession smOld "zz" [("k1", 2), ("k2", 3)] = smOld :=
  ⟨(updateSession_merge smOld "s2" [("k1", 2), ("k2", 3)] (by decide)).1
      sessOld (by decide),
    (updateSession_merge smOld "zz" [("k1", 2), ("k2", 3)] (by decide)).2
      (by decide)⟩

/-- C10: `UpdateSession` frame.  Only the data map of the addressed
session changes: its id, user id, username, email, creation instant and
expiry are untouched (so no TTL extension), every other key of the table
is untouched, the timeout is untouched — and because only map presence
is checked, the merge happens even for a session whose expiry is already
past. -/
theorem updateSession_frame {α : Type} (sm : SessionManager α) (id : String)
    (d : List (String × α)) :
    (∀ s : Session α, lookup sm.sessions id = some s →
        ∃ s' : Session α,
          lookup (UpdateSession sm id d).sessions id = some s' ∧
          s'.id = s.id ∧ s'.userID = s.userID ∧ s'.username = s.username ∧
          s'.email = s.email ∧ s'.createdAt = s.createdAt ∧
          s'.expiresAt = s.expiresAt ∧ s'.data = mergeData s.data d) ∧
    (∀ k, k ≠ id → lookup (UpdateSession sm id d).sessions k =
        lookup sm.sessions k) ∧
    (UpdateSession sm id d).timeout = sm.timeout := by
  refine ⟨?_, ?_, ?_⟩
  · intro s hl
    exact ⟨{ s with data := mergeData s.data d },
      by simp [UpdateSession, hl, lookup_mapInsert],
      rfl, rfl, rfl, rfl, rfl, rfl, rfl⟩
  · intro k hk
    cases hl : lookup sm.sessions id with
    | none => simp [UpdateSession, hl]
    | some s =>
      simp only [UpdateSession, hl]
      exact lookup_mapInsert_ne _ _ _ _ hk
  · cases hl : lookup sm.sessions id with
    | none => simp [UpdateSession, hl]
    | some s => simp [UpdateSession, hl]

/-- Witness for C10: merging into the already-expired `sessOld` still
happens, leaves every field except data unchanged (expiry still 0), and
other keys of the table are unaffected. -/
theorem updateSession_frame_witness :
    (∃ s' : Session Nat,
        lookup (UpdateSession smOld "s2" [("k2", 5)]).sessions "s2" = some s' ∧
        s'.id = sessOld.id ∧ s'.userID = sessOld.userID ∧
        s'.username = sessOld.username ∧ s'.email = sessOld.email ∧
        s'.createdAt = sessOld.createdAt ∧ s'.expiresAt = sessOld.expiresAt ∧
        s'.data = mergeData sessOld.data [("k2", 5)]) ∧
    lookup (UpdateSession smOld "s2" [("k2", 5)]).sessions "zz" =
      lookup smOld.sessions "zz" :=
  ⟨(updateSession_frame smOld "s2" [("k2", 5)]).1 sessOld (by decide),
    (updateSession_frame smOld "s2" [("k2", 5)]).2.1 "zz" (by decide)⟩

/-! ## Legacy middleware theorem (claim C9) -/

/-- C9: the legacy `middleware.getSession` returns nil for every request
— with no cookie, with an empty cookie, and with any non-empty cookie
value alike — so the `RequireAuth` path built on it rejects every
request as unauthenticated. -/
theorem getSession_always_none (sessionCookie : Option String) :
    getSession sessionCookie = none ∧
    RequireAuth sessionCookie =
      AuthDecision.unauthorized "authentication required" := by
  have h : getSession sessionCookie = none := by
    cases sessionCookie with
    | none => rfl
    | some v => simp [getSession]
  exact ⟨h, by simp [RequireAuth, h]⟩

end DotfilesApi
